import Mathlib

/-
Verification of the collection/dedup/tag pipeline of the factset-news
repository.  The definitions below are a shallow embedding of
`src/comprehensive_canadian_banks_news.py` (class ComprehensiveNewsCollector)
and of `get_news_for_ticker` in `src/street_account_news_canadian_banks.py`.
External effects (the vendor API call, `time.sleep`, the logger) are made
explicit: the API response is an input value, slept delays and emitted log
records are returned as data.
-/

namespace FactsetNews

/-- Lower-casing of a string, character by character; model of Python
`str.lower()` (the strings involved are ASCII). -/
def strToLower (s : String) : String :=
  ⟨s.toList.map Char.toLower⟩

/-- Containment of `needle` in `hay` as a contiguous substring; model of the
Python expression `needle in hay`. -/
def strContains (hay needle : String) : Bool :=
  decide (needle.toList <:+: hay.toList)

/-- One left-to-right, non-overlapping replacement pass over a character
list; the fuel argument (instantiated with the length of the list) makes the
recursion structural.  Model of Python `str.replace`. -/
def replaceChars (pat repl : List Char) : Nat → List Char → List Char
  | _, [] => []
  | 0, s => s
  | fuel + 1, c :: rest =>
      if pat ≠ [] ∧ pat.isPrefixOf (c :: rest) then
        repl ++ replaceChars pat repl fuel ((c :: rest).drop pat.length)
      else
        c :: replaceChars pat repl fuel rest

/-- Model of Python `s.replace(pat, repl)` (used by the source only as
`ticker.replace("-CA", "")`). -/
def strReplace (s pat repl : String) : String :=
  ⟨replaceChars pat.toList repl.toList s.toList.length s.toList⟩

/-- First 100 characters of a string; model of the Python slice
`error_msg[:100]` used when logging a non-400 search failure. -/
def truncate100 (s : String) : String :=
  ⟨s.toList.take 100⟩

/-- One raw story payload of the vendor response (`response.data` item /
its `to_dict()` image).  Every field the collector reads is a dictionary
access with a default, hence the `Option` types:
`id` via `getattr(item, 'id', None)`, the rest via `dict.get`. -/
structure RawStory where
  id : Option String
  headlines : Option String
  storyBody : Option String
  symbols : Option (List String)
  primarySymbols : Option (List String)
  storyTime : Option String
deriving DecidableEq

/-- The tracked Canadian bank tickers and display names, in insertion order;
`self.canadian_banks` of `ComprehensiveNewsCollector.__init__`
(src/comprehensive_canadian_banks_news.py lines 153-161). -/
def canadian_banks : List (String × String) :=
  [("RY-CA", "Royal Bank of Canada"),
   ("TD-CA", "Toronto-Dominion Bank"),
   ("BMO-CA", "Bank of Montreal"),
   ("BNS-CA", "Bank of Nova Scotia"),
   ("CM-CA", "CIBC"),
   ("NA-CA", "National Bank of Canada"),
   ("LB-CA", "Laurentian Bank")]

/-- The combined symbol pool of a story:
`all_symbols = set(symbols + primary_symbols)` with
`symbols = news_item.get('symbols', []) or []` and likewise for
`primarySymbols` (lines 301-303).  Membership in the Python set equals
membership in the concatenated list, so the list is kept. -/
def allSymbols (item : RawStory) : List String :=
  item.symbols.getD [] ++ item.primarySymbols.getD []

/-- The lower-cased concatenation `f"{headline} {story}".lower()` built from
`news_item.get('headlines', '')` and `news_item.get('storyBody', '')`
(lines 311-313). -/
def full_text_lower (item : RawStory) : String :=
  strToLower ((item.headlines.getD "") ++ " " ++ (item.storyBody.getD ""))

/-- The per-bank body of the loop of `_check_bank_mentions`
(lines 305-317): symbol membership of the ticker or of the ticker with
`-CA` removed, then case-insensitive name containment in headline+body. -/
def code_tag_fun (item : RawStory) (bnk : String × String) : Option String :=
  if bnk.1 ∈ allSymbols item ∨ strReplace bnk.1 ("-CA") ("") ∈ allSymbols item then
    some bnk.1
  else if strContains (full_text_lower item) (strToLower bnk.2) = true then
    some bnk.1
  else
    none

/-- `_check_bank_mentions(news_item)` (lines 295-319): the `mentioned` list
accumulated over the banks in order. -/
def check_bank_mentions (banks : List (String × String)) (item : RawStory) : List String :=
  banks.filterMap (code_tag_fun item)

/-- A tracked entity as the specification describes it: canonical ticker,
display name, registered aliases (claim C2; spec section 3). -/
structure Entity where
  ticker : String
  name : String
  aliases : List String
deriving DecidableEq

/-- Modelled from the spec: the per-entity step of the two-step tagging
algorithm exactly as claim C2 and spec section 4.4 state it - exact
case-sensitive symbol membership of the ticker or a registered alias, else
case-insensitive display-name containment.  Defined only to be compared
with `code_tag_fun`. -/
def spec_tag_fun (item : RawStory) (e : Entity) : Option String :=
  if e.ticker ∈ allSymbols item ∨ (∃ a, a ∈ e.aliases ∧ a ∈ allSymbols item) then
    some e.ticker
  else if strContains (full_text_lower item) (strToLower e.name) = true then
    some e.ticker
  else
    none

/-- Modelled from the spec: the spec's two-step tagging algorithm over a
list of entities. -/
def tag_spec_two_step (entities : List Entity) (item : RawStory) : List String :=
  entities.filterMap (spec_tag_fun item)

/-- The per-entity step of the amended two-step algorithm: step 1 also
accepts the ticker with its `-CA` suffix removed as a symbol-list member
(the amendment claim C2 is forced into by the code). -/
def amended_tag_fun (item : RawStory) (e : Entity) : Option String :=
  if e.ticker ∈ allSymbols item ∨ (∃ a, a ∈ e.aliases ∧ a ∈ allSymbols item) ∨
      strReplace e.ticker ("-CA") ("") ∈ allSymbols item then
    some e.ticker
  else if strContains (full_text_lower item) (strToLower e.name) = true then
    some e.ticker
  else
    none

/-- The amended two-step algorithm over a list of entities. -/
def tag_amended_two_step (entities : List Entity) (item : RawStory) : List String :=
  entities.filterMap (amended_tag_fun item)

/-- The tracked banks as entities; no alias is registered anywhere in the
source, so every alias list is empty. -/
def bank_entities : List Entity :=
  canadian_banks.map (fun bnk => Entity.mk bnk.1 bnk.2 [])

/-- A stored news record: the payload dictionary enriched with the
`search_method`, `retrieved_at` and `canadian_banks_mentioned` entries the
collector adds before appending it (lines 273-278). -/
structure NewsRecord where
  story : RawStory
  search_method : String
  retrieved_at : String
  canadian_banks_mentioned : List String
deriving DecidableEq

/-- The mutable state `_search_news` touches: `self.all_news` (list of
stored records) and `self.unique_stories` (Python set of identifiers).
`request_count`/`request_delay` belong to `_rate_limit` only and carry no
per-story information; in particular the collector keeps no provenance or
occurrence counter of any kind. -/
structure CollectorState where
  all_news : List NewsRecord
  unique_stories : Finset String
deriving DecidableEq

/-- The collector state right after `__init__`: empty record list, empty
identifier set (lines 163-164). -/
def init_state : CollectorState :=
  CollectorState.mk [] ∅

/-- A log record emitted by `_search_news`; `logger.warning` or
`logger.error` with the formatted message. -/
inductive LogEntry where
  | warning (msg : String)
  | error (msg : String)
deriving DecidableEq

/-- The record built for a newly seen payload:
`news_item = item.to_dict()`, then the three added entries
(lines 273-278). -/
def mk_record (banks : List (String × String)) (description retrieved_at : String)
    (item : RawStory) : NewsRecord :=
  NewsRecord.mk item description retrieved_at (check_bank_mentions banks item)

/-- The body of the `for item in response.data` loop of `_search_news`
(lines 266-281), threading `(state, new_count)`.  The Python guard
`if story_id and story_id not in self.unique_stories` is false when the
identifier is absent (`None`), empty (falsy) or already seen. -/
def process_item (banks : List (String × String)) (description retrieved_at : String)
    (acc : CollectorState × Nat) (item : RawStory) : CollectorState × Nat :=
  match item.id with
  | none => acc
  | some sid =>
      if sid ≠ "" ∧ sid ∉ acc.1.unique_stories then
        (CollectorState.mk
          (acc.1.all_news ++ [mk_record banks description retrieved_at item])
          (insert sid acc.1.unique_stories),
         acc.2 + 1)
      else acc

/-- What one `_search_news` call produces: the updated collector state, the
returned `new_count`, and the log records it emitted. -/
structure SearchOutcome where
  state : CollectorState
  newCount : Nat
  logs : List LogEntry
deriving DecidableEq

/-- `_search_news` (lines 224-293) with the outcome of the single API call
it makes passed in as a value: `Except.ok items` is a response carrying
`response.data` (a falsy response is `Except.ok []`), `Except.error msg` is
a raised exception with message `msg`.  The function is total: every
exception is caught at lines 287-293, logged (a warning mentioning 400 for
rejected filters, a truncated error otherwise) and turned into the return
value 0; the per-item loop emits no log record at all. -/
def search_news (banks : List (String × String)) (description retrieved_at : String)
    (api_result : Except String (List RawStory)) (st : CollectorState) : SearchOutcome :=
  match api_result with
  | Except.ok items =>
      SearchOutcome.mk
        (items.foldl (process_item banks description retrieved_at) (st, 0)).1
        (items.foldl (process_item banks description retrieved_at) (st, 0)).2
        []
  | Except.error msg =>
      if strContains msg ("400") = true then
        SearchOutcome.mk st 0
          [LogEntry.warning (description ++ ": Bad Request (400) - Invalid filter value")]
      else
        SearchOutcome.mk st 0
          [LogEntry.error (description ++ ": Error - " ++ truncate100 msg)]

/-- One strategy execution of `collect_news`: its log label, the
`datetime.now().isoformat()` stamp, and the outcome of its API call. -/
structure CallSpec where
  description : String
  retrieved_at : String
  result : Except String (List RawStory)

/-- The strategy loop of `collect_news` (lines 168-213): one `_search_news`
call per strategy, sequentially, threading the collector state; the
per-strategy counts and logs are collected in order.  Each strategy issues
exactly one API call - `_search_news` contains no retry loop. -/
def run_search_calls (banks : List (String × String)) :
    List CallSpec → CollectorState → CollectorState × List (Nat × List LogEntry)
  | [], st => (st, [])
  | c :: rest, st =>
      ((run_search_calls banks rest
          (search_news banks c.description c.retrieved_at c.result st).state).1,
       ((search_news banks c.description c.retrieved_at c.result st).newCount,
        (search_news banks c.description c.retrieved_at c.result st).logs) ::
       (run_search_calls banks rest
          (search_news banks c.description c.retrieved_at c.result st).state).2)

/-- The `config["api_settings"]` entries `get_news_for_ticker` reads
(src/street_account_news_canadian_banks.py lines 725-826); delays are
modelled as rationals. -/
structure ApiSettings where
  max_retries : Nat
  retry_delay : ℚ
  use_exponential_backoff : Bool
  max_backoff_delay : ℚ

/-- The delay computed in the `except` branch (lines 810-820): capped
exponential backoff when enabled, the fixed `retry_delay` otherwise. -/
def backoff_delay (cfg : ApiSettings) (attempt : Nat) : ℚ :=
  if cfg.use_exponential_backoff then
    min (cfg.retry_delay * 2 ^ attempt) cfg.max_backoff_delay
  else
    cfg.retry_delay

/-- What one `get_news_for_ticker` run produces: the returned news items,
the number of API call attempts made, and the delays slept (in order). -/
structure TickerOutcome where
  items : List RawStory
  attempts : Nat
  sleeps : List ℚ
deriving DecidableEq

/-- The `for attempt in range(max_retries)` loop of `get_news_for_ticker`
(lines 725-839), with `call k` the outcome of the API call of attempt `k`
(0-based) and the remaining iteration count as structural fuel.  A
successful call returns its items at once (a falsy/empty response is
`Except.ok []`, returned as the empty list at line 788); a raised exception
retries after sleeping `backoff_delay` while `attempt < max_retries - 1`
and otherwise returns the empty list (lines 807-837); a loop that runs out
of iterations returns the empty list (line 839). -/
def get_news_loop (cfg : ApiSettings) (call : Nat → Except String (List RawStory)) :
    Nat → Nat → TickerOutcome
  | _, 0 => TickerOutcome.mk [] 0 []
  | attempt, fuel + 1 =>
      match call attempt with
      | Except.ok items => TickerOutcome.mk items 1 []
      | Except.error _ =>
          if attempt < cfg.max_retries - 1 then
            TickerOutcome.mk
              (get_news_loop cfg call (attempt + 1) fuel).items
              ((get_news_loop cfg call (attempt + 1) fuel).attempts + 1)
              (backoff_delay cfg attempt :: (get_news_loop cfg call (attempt + 1) fuel).sleeps)
          else
            TickerOutcome.mk [] 1 []

/-- `get_news_for_ticker` run from attempt 0 with the loop's full
iteration budget.  It is a total function: no exception escapes it. -/
def get_news_for_ticker (cfg : ApiSettings)
    (call : Nat → Except String (List RawStory)) : TickerOutcome :=
  get_news_loop cfg call 0 cfg.max_retries

/-- A retry configuration with 3 attempts and fixed delay, together with a
persistently failing call, used to witness claim C3. -/
def cfg_three : ApiSettings :=
  ApiSettings.mk 3 2 false 60

/-- A call that raises on every attempt (for instance ten consecutive
transient failures: every attempt that is made fails). -/
def call_fail : Nat → Except String (List RawStory) :=
  fun _ => Except.error "HTTP 500"

/-- A retry configuration with 4 attempts and exponential backoff capped at
5, used to witness claim C8. -/
def cfg_exp : ApiSettings :=
  ApiSettings.mk 4 2 true 5

/-- First payload carrying identifier s2. -/
def item_w1 : RawStory :=
  RawStory.mk (some "s2") (some "headline one") (some "body one") (some []) (some []) none

/-- Second payload carrying the same identifier s2 but a different body. -/
def item_w2 : RawStory :=
  RawStory.mk (some "s2") (some "headline two") (some "body two") (some []) (some []) none

/-- A payload both strategies return (claim C4's duplicate discovery). -/
def dup_item : RawStory :=
  RawStory.mk (some "s2") (some "hello") (some "world") (some []) (some []) none

/-- The collector state after strategy A discovered `dup_item`. -/
def after_first : CollectorState :=
  (search_news canadian_banks "Strategy A" "t0" (Except.ok [dup_item]) init_state).state

/-- A payload carrying no story identifier. -/
def no_id_item : RawStory :=
  RawStory.mk none (some "orphan headline") (some "orphan body") (some []) (some []) none

/-- A well-formed payload preceding the orphan payload. -/
def good_item_a : RawStory :=
  RawStory.mk (some "g1") (some "alpha") none (some []) none none

/-- A well-formed payload following the orphan payload. -/
def good_item_b : RawStory :=
  RawStory.mk (some "g2") (some "beta") none (some []) none none

/-- A successful strategy executed before the rejected one. -/
def call_before : CallSpec :=
  CallSpec.mk "RY-CA (Royal Bank of Canada)" "t0" (Except.ok [item_w1])

/-- A successful strategy executed after the rejected one. -/
def call_after : CallSpec :=
  CallSpec.mk "North America Financial" "t2" (Except.ok [item_w2])

/-- The story identifiers of the stored records, in storage order. -/
def story_ids (st : CollectorState) : List String :=
  st.all_news.filterMap (fun r => r.story.id)

/-- The relationship `_search_news` maintains between `all_news` and
`unique_stories`: every stored record carries an identifier, the stored
identifiers are pairwise distinct, and they are exactly the members of the
unique-story set. -/
def StoreInv (st : CollectorState) : Prop :=
  (story_ids st).Nodup ∧ (story_ids st).length = st.all_news.length ∧
    (story_ids st).toFinset = st.unique_stories

/-- A story whose symbol list holds the bare ticker RY (no `-CA` suffix)
and whose text mentions no bank name. -/
def story_ry_bare : RawStory :=
  RawStory.mk (some "s9") (some "x") none (some ["RY"]) none none

/-- A story whose symbol list holds the bare ticker RY and whose text holds
no bank name. -/
def story_strip_w : RawStory :=
  RawStory.mk (some "sX") (some "no names here") none (some ["RY"]) none none

/-- Under persistent failure the loop makes one attempt per remaining
iteration, sleeping the backoff delay between consecutive attempts and not
after the last one, and finally yields the empty list. -/
lemma get_news_loop_all_fail (cfg : ApiSettings)
    (call : Nat → Except String (List RawStory))
    (hfail : ∀ k, ∃ e, call k = Except.error e) :
    ∀ (fuel attempt : Nat), attempt + fuel = cfg.max_retries →
      get_news_loop cfg call attempt fuel =
        TickerOutcome.mk [] fuel ((List.range' attempt (fuel - 1)).map (backoff_delay cfg)) := by
  intro fuel
  induction fuel with
  | zero =>
      intro attempt _
      simp [get_news_loop]
  | succ f ih =>
      intro attempt htot
      obtain ⟨e, he⟩ := hfail attempt
      cases f with
      | zero =>
          have hnot : ¬ attempt < cfg.max_retries - 1 := by omega
          simp [get_news_loop, he, hnot]
      | succ g =>
          have hlt : attempt < cfg.max_retries - 1 := by omega
          have hrec := ih (attempt + 1) (by omega)
          simp only [get_news_loop] at hrec
          simp only [get_news_loop, he, if_pos hlt, hrec]
          simp only [Nat.add_sub_cancel, List.range'_succ, List.map_cons]

/-- Claim C3: with `max_retries = 3`, a strategy whose external call fails
on every attempt makes exactly 3 call attempts and then yields zero results
(the empty list); `get_news_for_ticker` is a total function, so no
exception propagates to its caller. -/
theorem bounded_retry_three_attempts (cfg : ApiSettings)
    (call : Nat → Except String (List RawStory))
    (hfail : ∀ k, ∃ e, call k = Except.error e)
    (h3 : cfg.max_retries = 3) :
    (get_news_for_ticker cfg call).attempts = 3 ∧
      (get_news_for_ticker cfg call).items = [] := by
  have h := get_news_loop_all_fail cfg call hfail cfg.max_retries 0 (by omega)
  rw [get_news_for_ticker, h, h3]
  exact ⟨rfl, rfl⟩

theorem bounded_retry_three_attempts_witness :
    (get_news_for_ticker cfg_three call_fail).attempts = 3 ∧
      (get_news_for_ticker cfg_three call_fail).items = [] :=
  bounded_retry_three_attempts cfg_three call_fail (fun _ => ⟨"HTTP 500", rfl⟩) rfl

/-- Claim C8: under persistent failure the delay slept after failed attempt
`k` is `min (retry_delay * 2 ^ k) max_backoff_delay` when exponential
backoff is enabled and the fixed `retry_delay` otherwise, and no delay is
slept after the final permitted attempt: `max_retries` attempts are made
but only `max_retries - 1` delays are slept. -/
theorem backoff_delay_formula (cfg : ApiSettings)
    (call : Nat → Except String (List RawStory))
    (hfail : ∀ k, ∃ e, call k = Except.error e) :
    (get_news_for_ticker cfg call).sleeps =
      (List.range (cfg.max_retries - 1)).map (fun k =>
        if cfg.use_exponential_backoff then
          min (cfg.retry_delay * 2 ^ k) cfg.max_backoff_delay
        else cfg.retry_delay) ∧
    (get_news_for_ticker cfg call).attempts = cfg.max_retries ∧
    (get_news_for_ticker cfg call).sleeps.length = cfg.max_retries - 1 := by
  have h := get_news_loop_all_fail cfg call hfail cfg.max_retries 0 (by omega)
  rw [get_news_for_ticker, h]
  refine ⟨?_, rfl, by simp⟩
  rw [List.range_eq_range']
  rfl

theorem backoff_delay_formula_witness :
    (get_news_for_ticker cfg_exp call_fail).sleeps =
      (List.range (cfg_exp.max_retries - 1)).map (fun k =>
        if cfg_exp.use_exponential_backoff then
          min (cfg_exp.retry_delay * 2 ^ k) cfg_exp.max_backoff_delay
        else cfg_exp.retry_delay) ∧
    (get_news_for_ticker cfg_exp call_fail).attempts = cfg_exp.max_retries ∧
    (get_news_for_ticker cfg_exp call_fail).sleeps.length = cfg_exp.max_retries - 1 :=
  backoff_delay_formula cfg_exp call_fail (fun _ => ⟨"HTTP 500", rfl⟩)

/-- A payload without identifier leaves state and count unchanged. -/
lemma process_item_none (b : List (String × String)) (d ra : String)
    (acc : CollectorState × Nat) (item : RawStory) (h : item.id = none) :
    process_item b d ra acc item = acc := by
  simp [process_item, h]

/-- A payload whose identifier fails the guard (empty or already seen)
leaves state and count unchanged. -/
lemma process_item_stay (b : List (String × String)) (d ra : String)
    (acc : CollectorState × Nat) (item : RawStory) (sid : String)
    (h1 : item.id = some sid) (hg : ¬ (sid ≠ "" ∧ sid ∉ acc.1.unique_stories)) :
    process_item b d ra acc item = acc := by
  simp only [process_item, h1]
  rw [if_neg hg]

/-- A fresh, non-empty identifier appends exactly one record and inserts
the identifier. -/
lemma process_item_new (b : List (String × String)) (d ra : String)
    (acc : CollectorState × Nat) (item : RawStory) (sid : String)
    (h1 : item.id = some sid) (hg : sid ≠ "" ∧ sid ∉ acc.1.unique_stories) :
    process_item b d ra acc item =
      (CollectorState.mk (acc.1.all_news ++ [mk_record b d ra item])
        (insert sid acc.1.unique_stories), acc.2 + 1) := by
  simp only [process_item, h1]
  rw [if_pos hg]

/-- Claim C1: dedup is idempotent and first-wins.  For a fresh identifier,
the first delivery counts as 1 new record; a second delivery of the same
identifier counts 0, the stored record list is exactly the old list plus
the record built from the first payload (its body and strategy label), and
the unique count grew by exactly 1.  Moreover, in general, a call
delivering a payload whose identifier is already in the unique-story set
changes nothing at all. -/
theorem dedup_idempotent_first_wins
    (stA : CollectorState) (itemA itemB : RawStory) (sid dA dB tA tB : String)
    (hA : itemA.id = some sid) (hB : itemB.id = some sid)
    (hne : sid ≠ "") (hfresh : sid ∉ stA.unique_stories) :
    (search_news canadian_banks dA tA (Except.ok [itemA]) stA).newCount = 1 ∧
    (search_news canadian_banks dB tB (Except.ok [itemB])
        (search_news canadian_banks dA tA (Except.ok [itemA]) stA).state).newCount = 0 ∧
    (search_news canadian_banks dB tB (Except.ok [itemB])
        (search_news canadian_banks dA tA (Except.ok [itemA]) stA).state).state.all_news =
      stA.all_news ++ [mk_record canadian_banks dA tA itemA] ∧
    (search_news canadian_banks dB tB (Except.ok [itemB])
        (search_news canadian_banks dA tA (Except.ok [itemA]) stA).state).state.unique_stories.card =
      stA.unique_stories.card + 1 ∧
    (∀ (st' : CollectorState) (d' t' : String) (item' : RawStory) (s : String),
        item'.id = some s → s ∈ st'.unique_stories →
        search_news canadian_banks d' t' (Except.ok [item']) st' = SearchOutcome.mk st' 0 []) := by
  have s1 : search_news canadian_banks dA tA (Except.ok [itemA]) stA =
      SearchOutcome.mk
        (CollectorState.mk (stA.all_news ++ [mk_record canadian_banks dA tA itemA])
          (insert sid stA.unique_stories)) 1 [] := by
    simp [search_news, process_item_new canadian_banks dA tA (stA, 0) itemA sid hA ⟨hne, hfresh⟩]
  have s2 : ∀ (st' : CollectorState) (d' t' : String) (item' : RawStory) (s : String),
      item'.id = some s → s ∈ st'.unique_stories →
      search_news canadian_banks d' t' (Except.ok [item']) st' = SearchOutcome.mk st' 0 [] := by
    intro st' d' t' item' s h1 h2
    have hstay := process_item_stay canadian_banks d' t' (st', 0) item' s h1 (by simp [h2])
    simp [search_news, hstay]
  rw [s1]
  have s3 := s2 (CollectorState.mk (stA.all_news ++ [mk_record canadian_banks dA tA itemA])
      (insert sid stA.unique_stories)) dB tB itemB sid hB (Finset.mem_insert_self sid _)
  rw [s3]
  refine ⟨rfl, rfl, rfl, ?_, s2⟩
  exact Finset.card_insert_of_not_mem hfresh

theorem dedup_idempotent_first_wins_witness :
    (search_news canadian_banks "Strategy 1" "t0" (Except.ok [item_w1]) init_state).newCount = 1 ∧
    (search_news canadian_banks "Strategy 2" "t1" (Except.ok [item_w2])
        (search_news canadian_banks "Strategy 1" "t0" (Except.ok [item_w1]) init_state).state).newCount = 0 ∧
    (search_news canadian_banks "Strategy 2" "t1" (Except.ok [item_w2])
        (search_news canadian_banks "Strategy 1" "t0" (Except.ok [item_w1]) init_state).state).state.all_news =
      init_state.all_news ++ [mk_record canadian_banks "Strategy 1" "t0" item_w1] ∧
    (search_news canadian_banks "Strategy 2" "t1" (Except.ok [item_w2])
        (search_news canadian_banks "Strategy 1" "t0" (Except.ok [item_w1]) init_state).state).state.unique_stories.card =
      init_state.unique_stories.card + 1 := by
  have h := dedup_idempotent_first_wins init_state item_w1 item_w2 "s2"
    "Strategy 1" "Strategy 2" "t0" "t1" rfl rfl (by decide) (by decide)
  exact ⟨h.1, h.2.1, h.2.2.1, h.2.2.2.1⟩

/-- Claim C4 (amended): a payload whose identifier has already been seen is
dropped with no state change whatsoever - the stored record is neither
duplicated nor replaced, nothing is logged, and no provenance or occurrence
counter exists to be incremented. -/
theorem duplicate_discovery_changes_nothing
    (b : List (String × String)) (d ra : String) (st : CollectorState)
    (item : RawStory) (sid : String)
    (h1 : item.id = some sid) (h2 : sid ∈ st.unique_stories) :
    search_news b d ra (Except.ok [item]) st = SearchOutcome.mk st 0 [] := by
  have hstay := process_item_stay b d ra (st, 0) item sid h1 (by simp [h2])
  simp [search_news, hstay]

theorem duplicate_discovery_changes_nothing_witness :
    search_news canadian_banks "Strategy B" "t1" (Except.ok [dup_item]) after_first =
      SearchOutcome.mk after_first 0 [] :=
  duplicate_discovery_changes_nothing canadian_banks "Strategy B" "t1" after_first dup_item
    "s2" rfl (by decide)

/-- Claim C4 is false on the code: when strategy B re-delivers the payload
with identifier s2, the collector's entire state is bit-for-bit the state
left by strategy A - no counter of any kind is incremented under the label
of strategy B, which appears nowhere in the state (the only stored strategy
label is still that of strategy A). -/
theorem provenance_counter_refuted :
    (search_news canadian_banks "Strategy B" "t1" (Except.ok [dup_item]) after_first).state =
      after_first ∧
    (search_news canadian_banks "Strategy B" "t1" (Except.ok [dup_item]) after_first).logs = [] ∧
    after_first.all_news.map (fun r => r.search_method) = ["Strategy A"] := by
  refine ⟨by decide, by decide, by decide⟩

/-- Claim C5 is false on the code: a payload with no identifier is indeed
discarded (0 new records, state untouched, no exception - the function is
total), but the call logs nothing at all, in particular not the one
DataQuality warning the claim asserts. -/
theorem missing_id_no_warning_logged :
    (search_news canadian_banks "Strategy 1" "t0" (Except.ok [no_id_item]) init_state).newCount = 0 ∧
    (search_news canadian_banks "Strategy 1" "t0" (Except.ok [no_id_item]) init_state).logs = [] ∧
    (search_news canadian_banks "Strategy 1" "t0" (Except.ok [no_id_item]) init_state).state =
      init_state := by
  refine ⟨rfl, rfl, by decide⟩

/-- Claim C5 (amended): a batch containing a payload with no identifier
yields exactly what the batch without that payload yields - the payload is
discarded silently, contributing 0 new records, with no exception raised
and no warning logged (the call emits no log record on its success path). -/
theorem missing_id_silent_discard
    (b : List (String × String)) (d ra : String) (st : CollectorState)
    (pre post : List RawStory) (item : RawStory) (h : item.id = none) :
    search_news b d ra (Except.ok (pre ++ item :: post)) st =
      search_news b d ra (Except.ok (pre ++ post)) st ∧
    (search_news b d ra (Except.ok (pre ++ post)) st).logs = [] := by
  refine ⟨?_, rfl⟩
  simp [search_news, List.foldl_append, process_item_none, h]

theorem missing_id_silent_discard_witness :
    search_news canadian_banks "Strategy 1" "t0"
        (Except.ok ([good_item_a] ++ no_id_item :: [good_item_b])) init_state =
      search_news canadian_banks "Strategy 1" "t0"
        (Except.ok ([good_item_a] ++ [good_item_b])) init_state ∧
    (search_news canadian_banks "Strategy 1" "t0"
        (Except.ok ([good_item_a] ++ [good_item_b])) init_state).logs = [] :=
  missing_id_silent_discard canadian_banks "Strategy 1" "t0" init_state
    [good_item_a] [good_item_b] no_id_item rfl

/-- Claim C7: a strategy whose API call raises with a 400 (invalid filter)
rejection yields zero results and one warning log record, is not retried
(`_search_news` makes a single call), and the run continues: every
subsequent strategy executes exactly as it would have, on the unchanged
collector state. -/
theorem invalid_filter_skip_and_continue
    (b : List (String × String)) (pre post : List CallSpec)
    (d ra msg : String) (st : CollectorState)
    (h400 : strContains msg ("400") = true) :
    (run_search_calls b (pre ++ CallSpec.mk d ra (Except.error msg) :: post) st).1 =
      (run_search_calls b post (run_search_calls b pre st).1).1 ∧
    (run_search_calls b (pre ++ CallSpec.mk d ra (Except.error msg) :: post) st).2 =
      (run_search_calls b pre st).2 ++
        (0, [LogEntry.warning (d ++ ": Bad Request (400) - Invalid filter value")]) ::
        (run_search_calls b post (run_search_calls b pre st).1).2 := by
  induction pre generalizing st with
  | nil => simp [run_search_calls, search_news, h400]
  | cons c rest ih =>
      have h1 := ih ((search_news b c.description c.retrieved_at c.result st).state)
      simp [run_search_calls, h1.1, h1.2]

theorem invalid_filter_skip_and_continue_witness :
    (run_search_calls canadian_banks
        ([call_before] ++ CallSpec.mk "Banking sector" "t1"
          (Except.error "Bad Request (400)") :: [call_after]) init_state).1 =
      (run_search_calls canadian_banks [call_after]
        (run_search_calls canadian_banks [call_before] init_state).1).1 ∧
    (run_search_calls canadian_banks
        ([call_before] ++ CallSpec.mk "Banking sector" "t1"
          (Except.error "Bad Request (400)") :: [call_after]) init_state).2 =
      (run_search_calls canadian_banks [call_before] init_state).2 ++
        (0, [LogEntry.warning ("Banking sector" ++ ": Bad Request (400) - Invalid filter value")]) ::
        (run_search_calls canadian_banks [call_after]
          (run_search_calls canadian_banks [call_before] init_state).1).2 :=
  invalid_filter_skip_and_continue canadian_banks [call_before] [call_after]
    "Banking sector" "t1" "Bad Request (400)" init_state (by decide)

/-- One loop-body step preserves the store invariant, and it changes the
record count and the unique-set cardinality by exactly the amount it adds
to `new_count`. -/
lemma process_item_inv (b : List (String × String)) (d ra : String)
    (acc : CollectorState × Nat) (item : RawStory) (h : StoreInv acc.1) :
    StoreInv (process_item b d ra acc item).1 ∧
    (process_item b d ra acc item).1.all_news.length + acc.2 =
      acc.1.all_news.length + (process_item b d ra acc item).2 ∧
    (process_item b d ra acc item).1.unique_stories.card + acc.2 =
      acc.1.unique_stories.card + (process_item b d ra acc item).2 := by
  cases hid : item.id with
  | none => rw [process_item_none b d ra acc item hid]; exact ⟨h, rfl, rfl⟩
  | some sid =>
      by_cases hg : sid ≠ "" ∧ sid ∉ acc.1.unique_stories
      · rw [process_item_new b d ra acc item sid hid hg]
        obtain ⟨hnd, hlen, hfin⟩ := h
        have hids : story_ids (CollectorState.mk
            (acc.1.all_news ++ [mk_record b d ra item])
            (insert sid acc.1.unique_stories)) = story_ids acc.1 ++ [sid] := by
          simp [story_ids, List.filterMap_append, mk_record, hid]
        have hnotin : sid ∉ story_ids acc.1 := by
          intro hmem
          exact hg.2 (hfin ▸ List.mem_toFinset.mpr hmem)
        refine ⟨⟨?_, ?_, ?_⟩, ?_, ?_⟩
        · rw [hids]
          simp [List.nodup_append, hnd, hnotin]
        · rw [hids]
          simp [hlen]
        · rw [hids]
          simp only [List.toFinset_append, List.toFinset_cons, List.toFinset_nil]
          rw [hfin]
          rw [Finset.union_comm]
          simp [Finset.insert_eq]
        · simp only [List.length_append, List.length_singleton]
          omega
        · rw [Finset.card_insert_of_not_mem hg.2]
          omega
      · rw [process_item_stay b d ra acc item sid hid hg]
        exact ⟨h, rfl, rfl⟩

/-- The whole response loop preserves the store invariant, and `new_count`
accounts exactly for the growth of the record list and of the unique set. -/
lemma foldl_process_inv (b : List (String × String)) (d ra : String)
    (items : List RawStory) :
    ∀ acc : CollectorState × Nat, StoreInv acc.1 →
      StoreInv (items.foldl (process_item b d ra) acc).1 ∧
      (items.foldl (process_item b d ra) acc).1.all_news.length + acc.2 =
        acc.1.all_news.length + (items.foldl (process_item b d ra) acc).2 ∧
      (items.foldl (process_item b d ra) acc).1.unique_stories.card + acc.2 =
        acc.1.unique_stories.card + (items.foldl (process_item b d ra) acc).2 := by
  induction items with
  | nil => intro acc h; exact ⟨h, rfl, rfl⟩
  | cons hd tl ih =>
      intro acc h
      have hstep := process_item_inv b d ra acc hd h
      have hrest := ih (process_item b d ra acc hd) hstep.1
      have e1 := hstep.2.1
      have e2 := hstep.2.2
      have e3 := hrest.2.1
      have e4 := hrest.2.2
      simp only [List.foldl_cons]
      exact ⟨hrest.1, by omega, by omega⟩

/-- One `_search_news` call preserves the store invariant and returns a
`new_count` equal to the growth of the record list and of the unique set. -/
lemma search_news_inv (b : List (String × String)) (d ra : String)
    (res : Except String (List RawStory)) (st : CollectorState) (h : StoreInv st) :
    StoreInv (search_news b d ra res st).state ∧
    (search_news b d ra res st).state.all_news.length =
      st.all_news.length + (search_news b d ra res st).newCount ∧
    (search_news b d ra res st).state.unique_stories.card =
      st.unique_stories.card + (search_news b d ra res st).newCount := by
  cases res with
  | error msg =>
      by_cases h4 : strContains msg ("400") = true <;> simp [search_news, h4, h]
  | ok items =>
      have hf := foldl_process_inv b d ra items (st, 0) h
      refine ⟨hf.1, ?_, ?_⟩
      · show (items.foldl (process_item b d ra) (st, 0)).1.all_news.length =
          st.all_news.length + (items.foldl (process_item b d ra) (st, 0)).2
        have e := hf.2.1
        dsimp only at e
        omega
      · show (items.foldl (process_item b d ra) (st, 0)).1.unique_stories.card =
          st.unique_stories.card + (items.foldl (process_item b d ra) (st, 0)).2
        have e := hf.2.2
        dsimp only at e
        omega

/-- Any sequence of `_search_news` calls preserves the store invariant. -/
lemma run_search_calls_inv (b : List (String × String)) (calls : List CallSpec) :
    ∀ st : CollectorState, StoreInv st → StoreInv (run_search_calls b calls st).1 := by
  induction calls with
  | nil => intro st h; exact h
  | cons c rest ih =>
      intro st h
      exact ih _ (search_news_inv b c.description c.retrieved_at c.result st h).1

/-- The freshly initialised collector satisfies the store invariant. -/
lemma store_inv_init : StoreInv init_state := by
  refine ⟨?_, ?_, ?_⟩ <;> simp [story_ids, init_state]

/-- Claim C9: after every sequence of collection calls starting from the
freshly initialised collector, the number of stored records equals the
cardinality of the unique-story set, no two stored records share a story
identifier (the stored identifiers are pairwise distinct and every record
has one), and the `new_count` returned by a next call equals the growth of
both the record list and the unique set. -/
theorem record_count_matches_unique_set (b : List (String × String))
    (calls : List CallSpec) (c : CallSpec) :
    (run_search_calls b calls init_state).1.all_news.length =
      (run_search_calls b calls init_state).1.unique_stories.card ∧
    (story_ids (run_search_calls b calls init_state).1).Nodup ∧
    (story_ids (run_search_calls b calls init_state).1).length =
      (run_search_calls b calls init_state).1.all_news.length ∧
    (search_news b c.description c.retrieved_at c.result
        (run_search_calls b calls init_state).1).state.all_news.length =
      (run_search_calls b calls init_state).1.all_news.length +
        (search_news b c.description c.retrieved_at c.result
          (run_search_calls b calls init_state).1).newCount ∧
    (search_news b c.description c.retrieved_at c.result
        (run_search_calls b calls init_state).1).state.unique_stories.card =
      (run_search_calls b calls init_state).1.unique_stories.card +
        (search_news b c.description c.retrieved_at c.result
          (run_search_calls b calls init_state).1).newCount := by
  have hinv := run_search_calls_inv b calls init_state store_inv_init
  have hnext := search_news_inv b c.description c.retrieved_at c.result _ hinv
  obtain ⟨hnd, hlen, hfin⟩ := hinv
  refine ⟨?_, hnd, hlen, hnext.2.1, hnext.2.2⟩
  rw [← hlen, ← hfin]
  exact (List.toFinset_card_of_nodup hnd).symm

/-- On an entity with no registered aliases the amended per-entity step
coincides with the code's per-bank step. -/
lemma amended_fun_on_empty_aliases (item : RawStory) (bnk : String × String) :
    amended_tag_fun item (Entity.mk bnk.1 bnk.2 []) = code_tag_fun item bnk := by
  simp [amended_tag_fun, code_tag_fun]

/-- Over entities with empty alias lists the amended two-step algorithm and
the code's tagger agree on every story. -/
lemma amended_eq_code (item : RawStory) (banks : List (String × String)) :
    tag_amended_two_step (banks.map (fun bnk => Entity.mk bnk.1 bnk.2 [])) item =
      check_bank_mentions banks item := by
  induction banks with
  | nil => rfl
  | cons hd tl ih =>
      simp only [List.map_cons, tag_amended_two_step, check_bank_mentions,
        List.filterMap_cons] at *
      rw [amended_fun_on_empty_aliases item hd]
      cases h : code_tag_fun item hd with
      | none => simpa using ih
      | some v => simpa using ih

/-- Claim C2 (amended): the code's tagger implements the two-step algorithm
with step 1 extended to also accept the ticker with its `-CA` suffix
removed as an exact symbol-list member (no more than the counterexample
forces); and tagging the scenario story with symbols `[RY-CA]` and headline
`RBC profits rise` yields exactly `[RY-CA]`. -/
theorem tagging_amended_two_step :
    (∀ item : RawStory,
        check_bank_mentions canadian_banks item = tag_amended_two_step bank_entities item) ∧
    check_bank_mentions canadian_banks
        (RawStory.mk (some "s1") (some "RBC profits rise") none (some ["RY-CA"]) none none) =
      ["RY-CA"] := by
  constructor
  · intro item
    exact (amended_eq_code item canadian_banks).symm
  · decide

/-- Claim C2 is false on the code: on a story whose symbol list holds the
bare ticker RY, the code tags RY-CA although the claim's two-step algorithm
(symbol membership of the canonical ticker or a registered alias, else
display-name containment) tags nothing. -/
theorem tagging_two_step_refuted :
    check_bank_mentions canadian_banks story_ry_bare ≠
      tag_spec_two_step bank_entities story_ry_bare ∧
    "RY-CA" ∈ check_bank_mentions canadian_banks story_ry_bare ∧
    "RY-CA" ∉ tag_spec_two_step bank_entities story_ry_bare := by
  refine ⟨by decide, by decide, by decide⟩

/-- The value produced by the per-bank step is the bank's ticker. -/
lemma code_tag_fun_eq_some (item : RawStory) (bnk : String × String) (v : String)
    (h : code_tag_fun item bnk = some v) : v = bnk.1 := by
  by_cases h1 : bnk.1 ∈ allSymbols item ∨ strReplace bnk.1 ("-CA") ("") ∈ allSymbols item
  · rw [code_tag_fun, if_pos h1] at h
    exact (Option.some.inj h).symm
  · rw [code_tag_fun, if_neg h1] at h
    by_cases h2 : strContains (full_text_lower item) (strToLower bnk.2) = true
    · rw [if_pos h2] at h
      exact (Option.some.inj h).symm
    · rw [if_neg h2] at h
      cases h

/-- The mention list is a sublist of the tracked tickers in order. -/
lemma check_bank_mentions_sublist (banks : List (String × String)) (item : RawStory) :
    (check_bank_mentions banks item).Sublist (banks.map Prod.fst) := by
  induction banks with
  | nil => simp [check_bank_mentions]
  | cons hd tl ih =>
      simp only [check_bank_mentions, List.filterMap_cons, List.map_cons] at *
      cases h : code_tag_fun item hd with
      | none => exact List.Sublist.cons hd.1 ih
      | some v =>
          rw [code_tag_fun_eq_some item hd v h]
          exact List.Sublist.cons₂ hd.1 ih

/-- Claim C10: the tagger also marks a tracked bank as mentioned when its
ticker with the `-CA` suffix removed is a member of the story's symbol
pool, although no such alias is registered anywhere; and the returned
mention list holds each tracked ticker at most once and only tickers of
tracked banks. -/
theorem ticker_suffix_strip_tagging (item : RawStory) (t n : String)
    (hmem : (t, n) ∈ canadian_banks)
    (hstrip : strReplace t ("-CA") ("") ∈ allSymbols item) :
    t ∈ check_bank_mentions canadian_banks item ∧
    (check_bank_mentions canadian_banks item).Nodup ∧
    ∀ x ∈ check_bank_mentions canadian_banks item, x ∈ canadian_banks.map Prod.fst := by
  refine ⟨?_, ?_, ?_⟩
  · apply List.mem_filterMap.mpr
    refine ⟨(t, n), hmem, ?_⟩
    rw [code_tag_fun, if_pos (Or.inr hstrip)]
  · exact (check_bank_mentions_sublist canadian_banks item).nodup (by decide)
  · intro x hx
    exact (check_bank_mentions_sublist canadian_banks item).subset hx

theorem ticker_suffix_strip_tagging_witness :
    "RY-CA" ∈ check_bank_mentions canadian_banks story_strip_w ∧
    (check_bank_mentions canadian_banks story_strip_w).Nodup ∧
    ∀ x ∈ check_bank_mentions canadian_banks story_strip_w,
      x ∈ canadian_banks.map Prod.fst :=
  ticker_suffix_strip_tagging story_strip_w "RY-CA" "Royal Bank of Canada"
    (by decide) (by decide)

end FactsetNews
